import Mathlib

/-!
Verification of the streaming chat relay (Next.js route `src/app/api/chat/route.ts`
and client page `src/app/page.tsx`) against its natural-language specification.

The TypeScript source is shallowly embedded: JavaScript strings are modelled as
Lean `String` (operated on through their `List Char` data), external JavaScript
primitives (`String.prototype.normalize`, `JSON.parse`, the network `fetch`) are
parameters of the embedded functions, and each theorem that constrains such a
parameter only assumes facts that hold of the real primitive.
-/

/-- Characters treated as whitespace by the JavaScript `trim` method (the
ASCII whitespace characters plus NBSP and the BOM; the remaining Unicode
space characters play no role in any statement below). -/
def isJsWs (c : Char) : Bool :=
  c = ' ' || c = '\t' || c = '\n' || c = '\r' ||
  c = Char.ofNat 0x0B || c = Char.ofNat 0x0C ||
  c = Char.ofNat 0xA0 || c = Char.ofNat 0xFEFF

/-- List-level trim: drop leading and trailing whitespace. -/
def trimL (l : List Char) : List Char :=
  ((l.dropWhile isJsWs).reverse.dropWhile isJsWs).reverse

/-- Model of the JavaScript expression `s.trim()`. -/
def jsTrim (s : String) : String :=
  ⟨trimL s.data⟩

/-- List-level split on the newline character, mirroring the JavaScript
expression `s.split(String.fromCharCode 10)`: it always returns at least one
(possibly empty) segment, and none of the segments contains a newline. -/
def splitNlL : List Char → List (List Char)
  | [] => [[]]
  | c :: rest =>
    if c = '\n' then [] :: splitNlL rest
    else (c :: (splitNlL rest).headD []) :: (splitNlL rest).tail

/-- Model of the JavaScript expression `s.split` on a newline. -/
def jsSplitNl (s : String) : List String :=
  (splitNlL s.data).map (fun l => (⟨l⟩ : String))

/-- Model of the JavaScript test `line.startsWith` applied to the SSE prefix
`data: ` (six characters). -/
def jsStartsWithData (s : String) : Bool :=
  "data: ".data.isPrefixOf s.data

/-- Model of the JavaScript expression `line.slice 6`. -/
def jsSlice6 (s : String) : String :=
  ⟨s.data.drop 6⟩

/-! ## Content Sanitizer (`sanitizeContent`, route.ts lines 10 to 38) -/

/-- Substitution table of `sanitizeContent`: smart typographic characters are
mapped to ASCII equivalents (left and right double quote to a double quote,
left and right single quote to an ASCII apostrophe, em dash and en dash to a
hyphen, the ellipsis character to three dots). -/
def replacementTable : List (Char × String) :=
  [ (Char.ofNat 0x201C, "\""), (Char.ofNat 0x201D, "\""),
    (Char.ofNat 0x2018, String.singleton (Char.ofNat 0x27)),
    (Char.ofNat 0x2019, String.singleton (Char.ofNat 0x27)),
    (Char.ofNat 0x2014, "-"), (Char.ofNat 0x2013, "-"),
    (Char.ofNat 0x2026, "...") ]

/-- Model of the JavaScript call `content.replaceAll src tgt` for a
single-character search string `src`. -/
def applyReplacement (src : Char) (tgt : String) (s : String) : String :=
  ⟨s.data.foldr (fun c acc => if c = src then tgt.data ++ acc else c :: acc) []⟩

/-- Model of the final regex replace of `sanitizeContent`, which removes every
character outside the ASCII range 0x00 to 0x7F. -/
def stripNonAscii (s : String) : String :=
  ⟨s.data.filter (fun c => c.toNat ≤ 0x7F)⟩

/-- Model of `sanitizeContent` (route.ts lines 10 to 38).  The parameter
`norm` stands for the external primitive `String.prototype.normalize`
applied with NFKD; the source wraps that call in a try/catch that keeps the
original string on failure, so the composite behaviour is always some total
function of the input, which is exactly what the parameter expresses.  The
empty-string guard models the JavaScript falsiness test on a string. -/
def sanitizeContent (norm : String → String) (content : String) : String :=
  if content = "" then ""
  else
    stripNonAscii
      (replacementTable.foldl (fun s p => applyReplacement p.1 p.2 s) (norm content))

/-! ## Resilient Fetcher (`fetchWithRetries`, route.ts lines 41 to 51) -/

/-- Model of the part of a `fetch` response inspected by `fetchWithRetries`:
its `ok` flag and its numeric status. -/
structure JsResponse where
  ok : Bool
  status : Nat
deriving DecidableEq, Repr

/-- Errors observable from one attempt: a transport-level rejection of the
`fetch` promise, or a thrown `HTTP error` for a response whose `ok` flag is
false. -/
inductive FetchError where
  | transport (msg : String)
  | httpStatus (status : Nat)
deriving DecidableEq, Repr

/-- Outcome of the try-block body of `fetchWithRetries` on attempt number
`i`: the external network call is modelled by `net`, a map from attempt
number to transport outcome, and a response with `ok` false is converted to
a thrown error exactly as the source line `if (!response.ok) throw` does. -/
def attemptResult (net : Nat → Except String JsResponse) (i : Nat) :
    Except FetchError JsResponse :=
  match net i with
  | .error m => .error (.transport m)
  | .ok r => if r.ok then .ok r else .error (.httpStatus r.status)

/-- Model of `fetchWithRetries` (route.ts lines 41 to 51).  The result also
carries the total number of milliseconds slept in `setTimeout` waits and the
total number of attempts made.  On failure with zero retries left the error
is rethrown unchanged; otherwise the function waits `delay` and recurses with
`retries - 1` and `delay * 2`. -/
def fetchWithRetries (net : Nat → Except String JsResponse) (i : Nat)
    (retries : Nat) (delay : Nat) : Except FetchError JsResponse × Nat × Nat :=
  match attemptResult net i with
  | .ok r => (.ok r, 0, 1)
  | .error e =>
    match retries with
    | 0 => (.error e, 0, 1)
    | r + 1 =>
      let next := fetchWithRetries net (i + 1) r (delay * 2)
      (next.1, delay + next.2.1, next.2.2 + 1)

/-! ## Upstream Stream Transformer (route.ts lines 157 to 222) -/

/-- JSON values, the results of the external primitive `JSON.parse`.  Object
fields are an association list (the objects produced by `JSON.parse` have
distinct keys). -/
inductive Json where
  | null
  | bool (b : Bool)
  | num (n : Int)
  | str (s : String)
  | arr (elems : List Json)
  | obj (fields : List (String × Json))

/-- JavaScript truthiness of a JSON value. -/
def jsTruthy : Json → Bool
  | .null => false
  | .bool b => b
  | .num n => n ≠ 0
  | .str s => s ≠ ""
  | .arr _ => true
  | .obj _ => true

/-- Property access `v?.k` on a JSON value under optional chaining: a lookup
in an object, undefined (`none`) on every other value (including `null`,
which optional chaining passes through as undefined). -/
def jsGetField : Json → String → Option Json
  | .obj fields, k => fields.lookup k
  | _, _ => none

/-- Index access `v?.[0]` on a JSON value: the first element of an array,
the first character of a nonempty string (JavaScript string indexing),
undefined otherwise. -/
def jsIndex0 : Json → Option Json
  | .arr (x :: _) => some x
  | .str s => if s = "" then none else some (.str (String.singleton (s.data.headD ' ')))
  | _ => none

/-- Model of the expression `data.choices?.[0]?.delta?.content`.  The first
access `data.choices` is not guarded by optional chaining, so it throws a
TypeError when `data` is `null`; that exception is caught by the per-line
catch block of the transformer. -/
def extractDelta (data : Json) : Except Unit (Option Json) :=
  match data with
  | .null => .error ()
  | _ =>
    .ok (((jsGetField data "choices").bind jsIndex0).bind
      (fun d => (jsGetField d "delta").bind (fun d2 => jsGetField d2 "content")))

/-- Model of the expression `x || String.mk []`: an absent (undefined) or
falsy value is replaced by the empty string. -/
def orEmptyStr (v : Option Json) : Json :=
  match v with
  | some x => if jsTruthy x then x else .str ""
  | none => .str ""

/-- Extraction and sanitization of the delta text of one parsed payload
(route.ts lines 202 to 203).  A truthy non-string delta value makes
`sanitizeContent` throw a TypeError at its `replaceAll` calls (numbers,
booleans, arrays and objects have no such method); the error is caught by
the per-line catch block, modelled by the `Except.error` result. -/
def extractContent (norm : String → String) (data : Json) : Except Unit String :=
  match extractDelta data with
  | .error _ => .error ()
  | .ok v =>
    match orEmptyStr v with
    | .str s => .ok (sanitizeContent norm s)
    | _ => .error ()

/-- Terminal SSE event re-emitted by the transformer. -/
def doneEvent : String := "data: [DONE]\n\n"

/-- Processing of one complete line by the transformer loop (route.ts lines
183 to 212): blank lines and lines without the `data: ` prefix produce no
event; the payload `[DONE]` produces the terminal event; any other payload
is parsed by the external primitive `JSON.parse`, modelled by `parse` with
`none` for a parse failure, and produces an event exactly when the sanitized
delta text is nonempty. -/
def processLine (parse : String → Option Json) (norm : String → String)
    (line : String) : Option String :=
  if jsTrim line = "" then none
  else if ¬ jsStartsWithData line then none
  else
    let jsonData := jsSlice6 line
    if jsonData = "[DONE]" then some doneEvent
    else
      match parse jsonData with
      | none => none
      | some data =>
        match extractContent norm data with
        | .error _ => none
        | .ok content =>
          if content = "" then none
          else some ("data: " ++ content ++ "\n\n")

/-- The chunk loop of the transformer (route.ts lines 168 to 213) over
decoded text chunks: each chunk is appended to the carry-over buffer, the
result is split on newlines, the final segment becomes the new carry-over,
and every other segment is processed as a complete line.  At end of stream
the residual carry-over is discarded.  The returned list collects the
events enqueued on the output stream, in order. -/
def processChunks (parse : String → Option Json) (norm : String → String) :
    List String → String → List String
  | [], _ => []
  | chunk :: rest, buffer =>
    let lines := jsSplitNl (buffer ++ chunk)
    lines.dropLast.filterMap (processLine parse norm) ++
      processChunks parse norm rest (lines.getLastD "")

/-- The whole transformer run: the loop starts with an empty carry-over. -/
def runTransformer (parse : String → Option Json) (norm : String → String)
    (chunks : List String) : List String :=
  processChunks parse norm chunks ""

/-- Concatenation of all decoded chunks of the upstream stream. -/
def concatChunks (chunks : List String) : String :=
  ⟨(chunks.map String.data).flatten⟩

/-- The complete lines of an upstream stream: every newline-separated
segment of the full text except the trailing one, which is never processed
(at end of stream it is discarded as an unterminated partial line). -/
def completeLines (chunks : List String) : List String :=
  (jsSplitNl (concatChunks chunks)).dropLast

/-! ## Request validation, search query and system-message injection
(route.ts lines 86 to 145) -/

/-- Roles of the `ChatMessage` interface (route.ts lines 4 to 7). -/
inductive ChatRole where
  | user
  | assistant
  | system
deriving DecidableEq, Repr

/-- A validated chat message: a role and its (trimmed) content. -/
structure ChatMessage where
  role : ChatRole
  content : String
deriving DecidableEq, Repr

/-- Conversion of a role string that already passed the membership check of
the validation (route.ts line 96) into a `ChatRole`; the fallthrough case is
unreachable under that guard. -/
def parseRole (r : String) : ChatRole :=
  if r = "user" then .user else if r = "assistant" then .assistant else .system

/-- The allowed role strings (route.ts line 96). -/
def validRoles : List String := ["user", "assistant", "system"]

/-- Model of the per-message validation body (route.ts lines 86 to 103) on a
message whose `role` and `content` fields are strings: an empty role or an
empty content is rejected (the JavaScript falsiness test), then the role must
be one of the allowed strings, and the accepted message carries the trimmed
content.  The `typeof` object and string checks of the source are outside
this model, which starts from string-valued fields. -/
def validateMessage (role content : String) : Except String ChatMessage :=
  if role = "" then .error "role must be a non-empty string"
  else if content = "" then .error "content must be a non-empty string"
  else if ¬ validRoles.contains role then .error "role must be user, assistant, or system"
  else .ok ⟨parseRole role, jsTrim content⟩

/-- Model of the expression `messages[messages.length - 1].content`, the
query string handed to the search provider (route.ts lines 110 and 114).
The source names the intermediate value `lastUserMessage`, but it is simply
the final element of the list, whatever its role. -/
def searchQuery (messages : List ChatMessage) : Option String :=
  messages.getLast?.map (fun m => m.content)

/-- The system message built from the search response (route.ts lines 120 to
123): role `system`, content equal to a fixed instruction preamble followed
by the serialized search results.  Only the role matters to the statements
below, so the content is kept as the parameter `ctx`. -/
def systemMessageFor (ctx : String) : ChatMessage :=
  ⟨.system, ctx⟩

/-- Model of the system-message injection (route.ts lines 125 to 130): when
no message has role `system` the new system message is unshifted to the
front, otherwise the element at index 0 is overwritten with it. -/
def injectSystem (sys : ChatMessage) (messages : List ChatMessage) : List ChatMessage :=
  if ¬ messages.any (fun m => m.role = ChatRole.system) then sys :: messages
  else messages.set 0 sys

/-- Model of the upstream payload construction (route.ts lines 135 to 145):
every forwarded message keeps its role and carries its sanitized content. -/
def payloadMessages (norm : String → String) (messages : List ChatMessage) :
    List ChatMessage :=
  messages.map (fun m => ⟨m.role, sanitizeContent norm m.content⟩)

/-! ## Downstream Stream Consumer (page.tsx lines 22 to 54) -/

/-- Alphanumeric test used by the token-join heuristic, the regular
expression class of letters and digits. -/
def isAlnumChar (c : Char) : Bool :=
  ('a' ≤ c && c ≤ 'z') || ('A' ≤ c && c ≤ 'Z') || ('0' ≤ c && c ≤ '9')

/-- Model of the JavaScript expression `regex.test ch` where `ch` is a
single-character access that may be undefined: `test` converts its argument
to a string, and the string form of the undefined value is the word
`undefined`, which contains letters and therefore matches the class. -/
def jsTestAlnum : Option Char → Bool
  | none => true
  | some c => isAlnumChar c

/-- The token-join heuristic of the consumer (page.tsx lines 36 to 43):
`lastChar` is the final character of the buffer (undefined when the buffer
is empty), `firstChar` the first character of the incoming payload
(undefined when the payload is empty), and a single space is inserted
exactly when the buffer is nonempty and both regex tests succeed. -/
def joinPayload (text content : String) : String :=
  let lastChar := text.data.getLast?
  let firstChar := content.data.head?
  let needsSpace := decide (0 < text.length) && jsTestAlnum lastChar && jsTestAlnum firstChar
  text ++ (if needsSpace then " " else "") ++ content

/-- Consumption of one decoded chunk by the client read loop (page.tsx lines
29 to 47): the chunk is split on newlines with no carry-over between chunks,
and every line with the `data: ` prefix whose payload is not `[DONE]` is
joined onto the buffer. -/
def consumeChunk (text chunk : String) : String :=
  (jsSplitNl chunk).foldl
    (fun t line =>
      if jsStartsWithData line then
        if jsSlice6 line ≠ "[DONE]" then joinPayload t (jsSlice6 line) else t
      else t)
    text

/-- The whole consumer run over the chunks of a response body, starting from
the empty reconstruction buffer. -/
def consumeChunks (chunks : List String) : String :=
  chunks.foldl consumeChunk ""

/-! ## Concrete fixtures for the end-to-end scenario of the spec -/

/-- First upstream JSON payload of the end-to-end scenario. -/
def payloadHel : String := "\x7b\"choices\":[\x7b\"delta\":\x7b\"content\":\"Hel\"\x7d\x7d]\x7d"

/-- Second upstream JSON payload of the end-to-end scenario. -/
def payloadLo : String := "\x7b\"choices\":[\x7b\"delta\":\x7b\"content\":\"lo\"\x7d\x7d]\x7d"

/-- Parse result of `payloadHel` under `JSON.parse`. -/
def jsonHel : Json :=
  .obj [("choices", .arr [.obj [("delta", .obj [("content", .str "Hel")])]])]

/-- Parse result of `payloadLo` under `JSON.parse`. -/
def jsonLo : Json :=
  .obj [("choices", .arr [.obj [("delta", .obj [("content", .str "lo")])]])]

/-- Concrete stand-in for `JSON.parse` that agrees with it on the two
payloads of the end-to-end scenario and fails elsewhere (no other document
is ever parsed in the concrete runs below). -/
def parseStub (s : String) : Option Json :=
  if s = payloadHel then some jsonHel
  else if s = payloadLo then some jsonLo
  else none

/-- The three upstream chunks of the end-to-end scenario. -/
def upstreamChunks : List String :=
  [ "data: " ++ payloadHel ++ "\n\n",
    "data: " ++ payloadLo ++ "\n\n",
    "data: [DONE]\n\n" ]

/-! ## Structural lemmas about line splitting and the transformer loop -/

theorem splitNlL_ne_nil (l : List Char) : splitNlL l ≠ [] := by
  cases l with
  | nil => simp [splitNlL]
  | cons c rest =>
    simp only [splitNlL]
    split <;> simp

theorem splitNlL_of_no_nl (l : List Char) (h : '\n' ∉ l) : splitNlL l = [l] := by
  induction l with
  | nil => rfl
  | cons c rest ih =>
    simp only [List.mem_cons, not_or] at h
    have hc : ¬ c = '\n' := fun hc => h.1 hc.symm
    simp [splitNlL, if_neg hc, ih h.2]

theorem splitNlL_cons_nl (rest : List Char) :
    splitNlL ('\n' :: rest) = [] :: splitNlL rest := by
  simp [splitNlL]

theorem splitNlL_cons_ne (c : Char) (rest : List Char) (hc : ¬ c = '\n') :
    splitNlL (c :: rest) = (c :: (splitNlL rest).headD []) :: (splitNlL rest).tail := by
  simp [splitNlL, hc]

theorem splitNlL_append (a b : List Char) :
    splitNlL (a ++ b) =
      (splitNlL a).dropLast ++
        ((splitNlL a).getLastD [] ++ (splitNlL b).headD []) :: (splitNlL b).tail := by
  induction a with
  | nil =>
    cases hb : splitNlL b with
    | nil => exact absurd hb (splitNlL_ne_nil b)
    | cons y ys => simp [splitNlL, hb]
  | cons c a' ih =>
    have hne := splitNlL_ne_nil a'
    by_cases hc : c = '\n'
    · subst hc
      rw [List.cons_append, splitNlL_cons_nl, splitNlL_cons_nl, ih,
        List.dropLast_cons_of_ne_nil hne, List.getLastD_cons, List.cons_append]
    · rw [List.cons_append, splitNlL_cons_ne c _ hc, splitNlL_cons_ne c _ hc, ih]
      cases ha : splitNlL a' with
      | nil => exact absurd ha hne
      | cons l ls =>
        cases ls with
        | nil => simp only [List.headD_cons, List.tail_cons, List.dropLast_single,
            List.nil_append, List.getLastD_cons, List.getLastD_nil, List.cons_append]
        | cons l2 ls2 =>
          simp only [List.headD_cons, List.tail_cons,
            List.dropLast_cons_of_ne_nil (List.cons_ne_nil l2 ls2),
            List.cons_append, List.getLastD_cons]

theorem getLastD_ne_nil_default (xs : List (List Char)) (h : xs ≠ []) (d d' : List Char) :
    xs.getLastD d = xs.getLastD d' := by
  cases xs with
  | nil => exact absurd rfl h
  | cons a l => rw [List.getLastD_cons, List.getLastD_cons]

theorem splitNlL_getLastD_no_nl (l : List Char) : '\n' ∉ (splitNlL l).getLastD [] := by
  induction l with
  | nil => simp [splitNlL]
  | cons c rest ih =>
    by_cases hc : c = '\n'
    · subst hc
      rw [splitNlL_cons_nl, List.getLastD_cons,
        getLastD_ne_nil_default _ (splitNlL_ne_nil rest) [] []]
      exact ih
    · rw [splitNlL_cons_ne c _ hc, List.getLastD_cons]
      cases ha : splitNlL rest with
      | nil => exact absurd ha (splitNlL_ne_nil rest)
      | cons l2 ls2 =>
        cases ls2 with
        | nil =>
          rw [ha] at ih
          simp_all [List.getLastD_cons]
          exact fun h => hc h.symm
        | cons l3 ls3 =>
          rw [ha] at ih
          rw [List.headD_cons, List.tail_cons] at *
          rw [getLastD_ne_nil_default _ (by simp) (c :: l2) l2]
          rw [List.getLastD_cons] at ih
          exact ih

theorem concatChunks_cons (chunk : String) (rest : List String) :
    (concatChunks (chunk :: rest)).data = chunk.data ++ (concatChunks rest).data := rfl

theorem splitNlL_append_carry (a b : List Char) :
    splitNlL (a ++ b) =
      (splitNlL a).dropLast ++ splitNlL ((splitNlL a).getLastD [] ++ b) := by
  rw [splitNlL_append a b, splitNlL_append ((splitNlL a).getLastD []) b,
    splitNlL_of_no_nl _ (splitNlL_getLastD_no_nl a)]
  simp [List.getLastD_cons]

theorem processChunks_eq (parse : String → Option Json) (norm : String → String)
    (chunks : List String) :
    ∀ buffer : String, '\n' ∉ buffer.data →
    processChunks parse norm chunks buffer =
      ((splitNlL (buffer.data ++ (concatChunks chunks).data)).map
          (fun l => (⟨l⟩ : String))).dropLast.filterMap (processLine parse norm) := by
  induction chunks with
  | nil =>
    intro buffer h
    rw [show (concatChunks []).data = [] from rfl, List.append_nil,
      splitNlL_of_no_nl _ h]
    rfl
  | cons chunk rest ih =>
    intro buffer h
    show (jsSplitNl (buffer ++ chunk)).dropLast.filterMap (processLine parse norm) ++
      processChunks parse norm rest ((jsSplitNl (buffer ++ chunk)).getLastD "") = _
    have hdata : (buffer ++ chunk).data = buffer.data ++ chunk.data := String.data_append _ _
    have hmap : jsSplitNl (buffer ++ chunk) =
        (splitNlL (buffer.data ++ chunk.data)).map (fun l => (⟨l⟩ : String)) := by
      rw [jsSplitNl, hdata]
    have hlast : (jsSplitNl (buffer ++ chunk)).getLastD "" =
        (⟨(splitNlL (buffer.data ++ chunk.data)).getLastD []⟩ : String) := by
      rw [hmap]
      exact List.getLastD_map _ _ []
    have hnonl : '\n' ∉ ((⟨(splitNlL (buffer.data ++ chunk.data)).getLastD []⟩ : String)).data :=
      splitNlL_getLastD_no_nl _
    rw [hlast, hmap, ih _ hnonl, concatChunks_cons]
    rw [show ((⟨(splitNlL (buffer.data ++ chunk.data)).getLastD []⟩ : String)).data =
      (splitNlL (buffer.data ++ chunk.data)).getLastD [] from rfl]
    rw [← List.append_assoc, splitNlL_append_carry (buffer.data ++ chunk.data)]
    have hne2 : (List.map (fun l => (⟨l⟩ : String))
        (splitNlL ((splitNlL (buffer.data ++ chunk.data)).getLastD [] ++
          (concatChunks rest).data))) ≠ [] := by
      simp [splitNlL_ne_nil]
    rw [List.map_append, List.dropLast_append_of_ne_nil _ hne2,
      List.filterMap_append, List.map_dropLast]

theorem runTransformer_eq (parse : String → Option Json) (norm : String → String)
    (chunks : List String) :
    runTransformer parse norm chunks =
      (completeLines chunks).filterMap (processLine parse norm) := by
  rw [runTransformer, processChunks_eq parse norm chunks "" (by simp)]
  rfl

theorem processLine_done (parse : String → Option Json) (norm : String → String) :
    processLine parse norm "data: [DONE]" = some doneEvent := rfl

theorem processLine_shape (parse : String → Option Json) (norm : String → String)
    (l ev : String) (h : processLine parse norm l = some ev) :
    ∃ s, s ≠ "" ∧ ev = "data: " ++ s ++ "\n\n" := by
  simp only [processLine] at h
  split at h
  · exact absurd h (by simp)
  · split at h
    · exact absurd h (by simp)
    · split at h
      · refine ⟨"[DONE]", by simp, ?_⟩
        injection h with h2
        rw [← h2]
        rfl
      · split at h
        · exact absurd h (by simp)
        · split at h
          · exact absurd h (by simp)
          · rename_i content hcontent
            split at h
            · exact absurd h (by simp)
            · rename_i hne
              injection h with h2
              exact ⟨content, hne, h2.symm⟩

theorem count_filterMap_eq_countP {α β : Type} [DecidableEq β] (f : α → Option β)
    (e : β) (ls : List α) :
    (ls.filterMap f).count e = ls.countP (fun a => decide (f a = some e)) := by
  induction ls with
  | nil => rfl
  | cons a t ih =>
    rw [List.filterMap_cons, List.countP_cons]
    cases hfa : f a with
    | none => simp [hfa, ih]
    | some b =>
      rw [List.count_cons, ih]
      by_cases hbe : b = e
      · simp [hfa, hbe]
      · simp [hfa, hbe]

/-! ## Lemmas about the sanitizer -/

theorem mem_stripNonAscii (s : String) :
    ∀ c ∈ (stripNonAscii s).data, c.toNat ≤ 0x7F := by
  intro c hc
  have := List.of_mem_filter hc
  simpa using this

theorem stripNonAscii_of_ascii (s : String) (h : ∀ c ∈ s.data, c.toNat ≤ 0x7F) :
    stripNonAscii s = s := by
  cases s with
  | mk data =>
    show (⟨List.filter _ data⟩ : String) = _
    congr 1
    exact List.filter_eq_self.mpr (fun c hc => by simpa using h c hc)

theorem applyReplacement_of_not_mem (src : Char) (tgt : String) (s : String)
    (h : src ∉ s.data) : applyReplacement src tgt s = s := by
  cases s with
  | mk data =>
    show (⟨data.foldr _ []⟩ : String) = _
    congr 1
    induction data with
    | nil => rfl
    | cons c rest ih =>
      simp only [List.mem_cons, not_or] at h
      have hcs : ¬ c = src := fun hcs => h.1 hcs.symm
      simp only [List.foldr_cons, if_neg hcs]
      rw [ih h.2]

theorem replacement_sources_non_ascii :
    ∀ p ∈ replacementTable, 0x7F < p.1.toNat := by decide

theorem foldl_replacements_of_ascii (s : String) (h : ∀ c ∈ s.data, c.toNat ≤ 0x7F) :
    replacementTable.foldl (fun s p => applyReplacement p.1 p.2 s) s = s := by
  have key : ∀ (tbl : List (Char × String)), (∀ p ∈ tbl, 0x7F < p.1.toNat) →
      tbl.foldl (fun s p => applyReplacement p.1 p.2 s) s = s := by
    intro tbl htbl
    induction tbl with
    | nil => rfl
    | cons p rest ih =>
      rw [List.foldl_cons, applyReplacement_of_not_mem p.1 p.2 s
        (fun hmem => absurd (h p.1 hmem)
          (by simpa using Nat.not_le_of_lt (htbl p (List.mem_cons_self p rest))))]
      exact ih (fun q hq => htbl q (List.mem_cons_of_mem p hq))
  exact key replacementTable replacement_sources_non_ascii

theorem sanitizeContent_ascii (norm : String → String) (x : String) :
    ∀ c ∈ (sanitizeContent norm x).data, c.toNat ≤ 0x7F := by
  intro c hc
  rw [sanitizeContent] at hc
  split at hc
  · simp at hc
  · exact mem_stripNonAscii _ c hc

theorem sanitizeContent_of_ascii (norm : String → String)
    (hnorm : ∀ s : String, (∀ c ∈ s.data, c.toNat ≤ 0x7F) → norm s = s)
    (y : String) (hy : ∀ c ∈ y.data, c.toNat ≤ 0x7F) :
    sanitizeContent norm y = y := by
  rw [sanitizeContent]
  split
  · rename_i hempty
    exact hempty.symm
  · rw [hnorm y hy, foldl_replacements_of_ascii y hy, stripNonAscii_of_ascii y hy]

/-! ## Claim theorems -/

/-- Claim C6: `sanitizeContent` is idempotent.  For every input string `x`,
sanitizing twice equals sanitizing once.  The hypothesis on `norm` states
the one fact used about the external NFKD normalization primitive: a string
consisting only of ASCII characters is its own NFKD normal form (ASCII
characters have no decomposition mapping), so the primitive fixes it. -/
theorem sanitizeContent_idempotent (norm : String → String)
    (hnorm : ∀ s : String, (∀ c ∈ s.data, c.toNat ≤ 0x7F) → norm s = s)
    (x : String) :
    sanitizeContent norm (sanitizeContent norm x) = sanitizeContent norm x :=
  sanitizeContent_of_ascii norm hnorm _ (sanitizeContent_ascii norm x)

/-- Witness for claim C6 at a concrete input containing an ellipsis
character, with the identity function (which trivially fixes ASCII strings)
standing in for the normalization primitive. -/
theorem sanitizeContent_idempotent_witness :
    sanitizeContent id (sanitizeContent id ("abc" ++ String.singleton (Char.ofNat 0x2026))) =
      sanitizeContent id ("abc" ++ String.singleton (Char.ofNat 0x2026)) :=
  sanitizeContent_idempotent id (fun _ _ => rfl) _

/-- Claim C7: `sanitizeContent` is total (it is a Lean function, defined on
every input; the empty input, the model of both the empty and the null
JavaScript argument, returns the empty string) and every character of its
output is 7-bit ASCII. -/
theorem sanitizeContent_total_ascii (norm : String → String) (x : String) :
    sanitizeContent norm "" = "" ∧
    ∀ c ∈ (sanitizeContent norm x).data, c.toNat ≤ 0x7F :=
  ⟨rfl, sanitizeContent_ascii norm x⟩

/-- Witness for claim C7 at a concrete input: the ASCII bound is discharged
for the character of the sanitized output of the string A. -/
theorem sanitizeContent_total_ascii_witness :
    sanitizeContent id "" = "" ∧ Char.toNat 'A' ≤ 0x7F :=
  ⟨(sanitizeContent_total_ascii id "A").1,
    (sanitizeContent_total_ascii id "A").2 'A' (by decide)⟩

/-- Claim C8: with the default three retries, a request that fails twice and
then succeeds returns the success response after three attempts with a total
wait of at least 1000 + 2000 milliseconds, and a request that fails on every
attempt raises the error of the final attempt unchanged after exactly four
attempts (one initial plus three retries), having waited 1000 + 2000 + 4000
milliseconds. -/
theorem fetchWithRetries_spec :
    (∀ (net : Nat → Except String JsResponse) (R : JsResponse) (e0 e1 : FetchError),
      attemptResult net 0 = .error e0 → attemptResult net 1 = .error e1 →
      attemptResult net 2 = .ok R →
      ∃ w, fetchWithRetries net 0 3 1000 = (.ok R, w, 3) ∧ 1000 + 2000 ≤ w) ∧
    (∀ (net : Nat → Except String JsResponse) (e0 e1 e2 e3 : FetchError),
      attemptResult net 0 = .error e0 → attemptResult net 1 = .error e1 →
      attemptResult net 2 = .error e2 → attemptResult net 3 = .error e3 →
      fetchWithRetries net 0 3 1000 = (.error e3, 7000, 4)) := by
  constructor
  · intro net R e0 e1 h0 h1 h2
    refine ⟨3000, ?_, by norm_num⟩
    simp only [fetchWithRetries, h0, h1, h2]
  · intro net e0 e1 e2 e3 h0 h1 h2 h3
    simp only [fetchWithRetries, h0, h1, h2, h3]

/-- Witness for claim C8: both parts applied to concrete outcome sequences,
one failing twice before succeeding and one failing always. -/
theorem fetchWithRetries_spec_witness :
    (∃ w, fetchWithRetries (fun i => if i < 2 then .error "boom" else .ok ⟨true, 200⟩) 0 3 1000 =
        (.ok ⟨true, 200⟩, w, 3) ∧ 1000 + 2000 ≤ w) ∧
    fetchWithRetries (fun _ => .error "down") 0 3 1000 =
      (.error (.transport "down"), 7000, 4) :=
  ⟨fetchWithRetries_spec.1 _ ⟨true, 200⟩ (.transport "boom") (.transport "boom") rfl rfl rfl,
    fetchWithRetries_spec.2 _ (.transport "down") (.transport "down") (.transport "down")
      (.transport "down") rfl rfl rfl rfl⟩

/-- Counterexample to claim C5 as stated: an upstream stream whose decoded
text contains two complete `data: [DONE]` lines makes the transformer emit
the terminal event twice, so it does not emit exactly one terminal event
even though upstream contained at least one `[DONE]` payload line.  The
stand-in `fun _ => none` for `JSON.parse` is never consulted, because every
complete line of this stream is a `[DONE]` line. -/
theorem transformer_done_counterexample :
    runTransformer (fun _ => none) id ["data: [DONE]\ndata: [DONE]\n"] =
      [doneEvent, doneEvent] ∧
    "data: [DONE]" ∈ completeLines ["data: [DONE]\ndata: [DONE]\n"] ∧
    (runTransformer (fun _ => none) id ["data: [DONE]\ndata: [DONE]\n"]).count doneEvent ≠ 1 :=
  ⟨by decide, by decide, by decide⟩

/-- Claim C5 amended: the transformer emits the terminal event once per
complete upstream line with payload `[DONE]` (so the count of emitted
terminal events equals the count of such lines, rather than being exactly
one), under the proviso that no other complete line produces the terminal
event; with the real `JSON.parse` the proviso can only fail for a parsed
JSON line whose sanitized delta text is exactly `[DONE]`.  When the stream
contains no `[DONE]` line the output contains no terminal event and the
stream still ends by exhausting the chunk list, the residual carry-over
being discarded. -/
theorem transformer_done_events (parse : String → Option Json) (norm : String → String)
    (chunks : List String)
    (hnd : ∀ l ∈ completeLines chunks,
      processLine parse norm l = some doneEvent → l = "data: [DONE]") :
    (runTransformer parse norm chunks).count doneEvent =
      (completeLines chunks).count "data: [DONE]" ∧
    ((completeLines chunks).count "data: [DONE]" = 0 →
      doneEvent ∉ runTransformer parse norm chunks) := by
  have hmain : (runTransformer parse norm chunks).count doneEvent =
      (completeLines chunks).count "data: [DONE]" := by
    rw [runTransformer_eq, count_filterMap_eq_countP, List.count_eq_countP]
    apply List.countP_congr
    intro l hl
    simp only [decide_eq_true_eq, beq_iff_eq]
    exact ⟨hnd l hl, fun h => h ▸ processLine_done parse norm⟩
  exact ⟨hmain, fun h0 => List.count_eq_zero.mp (hmain.trans h0)⟩

/-- Witness for claim C5 at a concrete stream with one `[DONE]` line and one
junk line. -/
theorem transformer_done_events_witness :
    (runTransformer (fun _ => none) id ["data: [DONE]\nx\n"]).count doneEvent =
      (completeLines ["data: [DONE]\nx\n"]).count "data: [DONE]" ∧
    ((completeLines ["data: [DONE]\nx\n"]).count "data: [DONE]" = 0 →
      doneEvent ∉ runTransformer (fun _ => none) id ["data: [DONE]\nx\n"]) :=
  transformer_done_events (fun _ => none) id ["data: [DONE]\nx\n"] (by decide)

/-- Claim C9: a line whose payload is not the `[DONE]` sentinel and parses
successfully produces an event only when the extracted sanitized delta text
is nonempty, and the event then carries exactly that text; moreover no event
of any transformer run has an empty payload (every emitted event is of the
form `data: s` with nonempty `s`, the terminal event included). -/
theorem transformer_no_empty_event (parse : String → Option Json) (norm : String → String) :
    (∀ l j, jsSlice6 l ≠ "[DONE]" → parse (jsSlice6 l) = some j →
      ∀ ev, processLine parse norm l = some ev →
        ∃ s, extractContent norm j = .ok s ∧ s ≠ "" ∧ ev = "data: " ++ s ++ "\n\n") ∧
    (∀ chunks ev, ev ∈ runTransformer parse norm chunks →
      ∃ s, s ≠ "" ∧ ev = "data: " ++ s ++ "\n\n") := by
  constructor
  · intro l j hne hp ev hev
    simp only [processLine] at hev
    split at hev
    · simp at hev
    · split at hev
      · simp at hev
      · rw [hp] at hev
        have hev2 : (match extractContent norm j with
            | .error _ => none
            | .ok content =>
              if content = "" then none
              else some ("data: " ++ content ++ "

")) = some ev := hev
        cases hex : extractContent norm j with
        | error e =>
          rw [hex] at hev2
          exact Option.noConfusion hev2
        | ok s =>
          rw [hex] at hev2
          have hev3 : (if s = "" then none
              else some ("data: " ++ s ++ "

")) = some ev := hev2
          by_cases hs : s = ""
          · rw [if_pos hs] at hev3
            exact Option.noConfusion hev3
          · rw [if_neg hs] at hev3
            injection hev3 with h2
            exact ⟨s, rfl, hs, h2.symm⟩
  · intro chunks ev hev
    rw [runTransformer_eq] at hev
    obtain ⟨l, _, hpl⟩ := List.mem_filterMap.mp hev
    exact processLine_shape parse norm l ev hpl

/-- Witness for claim C9: the first part applied to the concrete line
carrying the first payload of the end-to-end scenario. -/
theorem transformer_no_empty_event_witness :
    ∃ s, extractContent id jsonHel = .ok s ∧ s ≠ "" ∧
      ("data: Hel\n\n" : String) = "data: " ++ s ++ "\n\n" :=
  (transformer_no_empty_event parseStub id).1 ("data: " ++ payloadHel) jsonHel
    (by decide) rfl "data: Hel\n\n" (by decide)

theorem processLine_json (parse : String → Option Json) (norm : String → String)
    (line p : String) (j : Json)
    (htrim : ¬ jsTrim line = "") (hstart : jsStartsWithData line = true)
    (hslice : jsSlice6 line = p) (hne : ¬ p = "[DONE]") (hp : parse p = some j) :
    processLine parse norm line =
      (match extractContent norm j with
       | .error _ => none
       | .ok content =>
         if content = "" then none else some ("data: " ++ content ++ "\n\n")) := by
  simp only [processLine, hslice]
  rw [if_neg htrim]
  rw [if_neg (by simp [hstart])]
  rw [if_neg hne, hp]

/-- Counterexample to claim C1 as stated: on the exact three-chunk upstream
stream of the claim, the transformer output is the three expected events,
but the reconstructed buffer of the consumer is the string Hel lo, with a
space inserted by the token-join heuristic between the two payloads (both
boundary characters are alphanumeric), not the string Hello.  The stand-in
`parseStub` agrees with `JSON.parse` on the two payload documents, and the
identity stands in for NFKD normalization, which fixes these pure-ASCII
chunks. -/
theorem end_to_end_counterexample :
    runTransformer parseStub id upstreamChunks =
      ["data: Hel\n\n", "data: lo\n\n", doneEvent] ∧
    consumeChunks (runTransformer parseStub id upstreamChunks) = "Hel lo" ∧
    ("Hel lo" : String) ≠ "Hello" :=
  ⟨by decide, by decide, by decide⟩

/-- Claim C1 amended: for the upstream stream of the claim the re-framed
output is exactly the three events `data: Hel`, `data: lo`, `data: [DONE]`
(each with the blank-line terminator), and the buffer reconstructed from
that output is the string Hel lo: the heuristic inserts one space at the
payload boundary because the letter l ends the buffer and the letter l
starts the incoming payload.  The hypotheses pin down the two values of the
external `JSON.parse` primitive that the run consults and the two values of
the NFKD primitive (both payloads are ASCII, hence fixed points). -/
theorem end_to_end_pipeline (parse : String → Option Json) (norm : String → String)
    (hp1 : parse payloadHel = some jsonHel) (hp2 : parse payloadLo = some jsonLo)
    (hn1 : norm "Hel" = "Hel") (hn2 : norm "lo" = "lo") :
    runTransformer parse norm upstreamChunks =
      ["data: Hel\n\n", "data: lo\n\n", doneEvent] ∧
    consumeChunks ["data: Hel\n\n", "data: lo\n\n", doneEvent] = "Hel lo" := by
  constructor
  · have hsan1 : sanitizeContent norm "Hel" = "Hel" := by
      rw [sanitizeContent, if_neg (by decide), hn1]
      decide
    have hsan2 : sanitizeContent norm "lo" = "lo" := by
      rw [sanitizeContent, if_neg (by decide), hn2]
      decide
    have hx1 : extractContent norm jsonHel = .ok (sanitizeContent norm "Hel") := rfl
    have hx2 : extractContent norm jsonLo = .ok (sanitizeContent norm "lo") := rfl
    have h1 : processLine parse norm ("data: " ++ payloadHel) = some "data: Hel\n\n" := by
      rw [processLine_json parse norm _ payloadHel jsonHel (by decide) (by decide) (by decide)
        (by decide) hp1, hx1, hsan1]
      rfl
    have h2 : processLine parse norm ("data: " ++ payloadLo) = some "data: lo\n\n" := by
      rw [processLine_json parse norm _ payloadLo jsonLo (by decide) (by decide) (by decide)
        (by decide) hp2, hx2, hsan2]
      rfl
    have hblank : processLine parse norm "" = none := rfl
    have hlines : completeLines upstreamChunks =
        ["data: " ++ payloadHel, "", "data: " ++ payloadLo, "", "data: [DONE]", ""] := by decide
    rw [runTransformer_eq, hlines]
    rw [List.filterMap_cons, h1]
    rw [List.filterMap_cons, hblank]
    rw [List.filterMap_cons, h2]
    rw [List.filterMap_cons, hblank]
    rw [List.filterMap_cons, processLine_done]
    rw [List.filterMap_cons, hblank]
    rfl
  · decide

/-- Witness for claim C1: the amended pipeline theorem applied to the
concrete stand-ins for the two external primitives. -/
theorem end_to_end_pipeline_witness :
    runTransformer parseStub id upstreamChunks =
      ["data: Hel\n\n", "data: lo\n\n", doneEvent] ∧
    consumeChunks ["data: Hel\n\n", "data: lo\n\n", doneEvent] = "Hel lo" :=
  end_to_end_pipeline parseStub id rfl rfl rfl rfl

/-- Counterexample to claim C2 as stated: on the validated list whose first
message is a user message and whose second message is a system message, the
injection overwrites index 0 (the user message) because a system entry
exists somewhere, leaving two system-role messages in the list, the old one
at index 1. -/
theorem injectSystem_counterexample :
    injectSystem (systemMessageFor "ctx") [⟨.user, "hi"⟩, ⟨.system, "old"⟩] =
      [⟨.system, "ctx"⟩, ⟨.system, "old"⟩] ∧
    (injectSystem (systemMessageFor "ctx") [⟨.user, "hi"⟩, ⟨.system, "old"⟩]).countP
      (fun m => m.role == ChatRole.system) = 2 :=
  ⟨by decide, by decide⟩

/-- Claim C2 amended: for every validated messages list in which no message
after index 0 has role system (so any existing system entry is at index 0,
the shape every conversation produced by this client has), the injected
system message becomes index 0, it is the only system entry afterwards, and
it replaces the existing index 0 entry when a system entry was present while
being prepended otherwise. -/
theorem injectSystem_invariant (ctx : String) (messages : List ChatMessage)
    (h : ∀ m ∈ messages.drop 1, m.role ≠ ChatRole.system) :
    ∃ rest, injectSystem (systemMessageFor ctx) messages = systemMessageFor ctx :: rest ∧
      (∀ m ∈ rest, m.role ≠ ChatRole.system) ∧
      ((messages.any (fun m => m.role = ChatRole.system)) = true → rest = messages.drop 1) ∧
      ((messages.any (fun m => m.role = ChatRole.system)) = false → rest = messages) := by
  rw [injectSystem]
  by_cases hany : messages.any (fun m => m.role = ChatRole.system) = true
  · rw [if_neg (by simp [hany])]
    cases messages with
    | nil => simp at hany
    | cons m0 tl =>
      refine ⟨tl, by simp, ?_, by simp [hany], by simp [hany]⟩
      intro m hm
      exact h m (by simpa using hm)
  · rw [if_pos (by simpa using hany)]
    have hall : ∀ x ∈ messages, ¬ x.role = ChatRole.system := by simpa using hany
    exact ⟨messages, rfl, hall, fun ht => absurd ht hany, fun _ => rfl⟩

/-- Witness for claim C2: the amended invariant applied to a single-element
user conversation. -/
theorem injectSystem_invariant_witness :
    ∃ rest, injectSystem (systemMessageFor "c") [⟨.user, "q"⟩] =
        systemMessageFor "c" :: rest ∧
      (∀ m ∈ rest, m.role ≠ ChatRole.system) ∧
      ((([⟨.user, "q"⟩] : List ChatMessage).any (fun m => m.role = ChatRole.system)) = true →
        rest = ([⟨.user, "q"⟩] : List ChatMessage).drop 1) ∧
      ((([⟨.user, "q"⟩] : List ChatMessage).any (fun m => m.role = ChatRole.system)) = false →
        rest = [⟨.user, "q"⟩]) :=
  injectSystem_invariant "c" [⟨.user, "q"⟩] (by decide)

/-- Claim C3, evaluation at the failing input: on the validated list whose
latest user message says capital of France and whose final message is an
assistant message saying Paris, the query handed to the search provider is
the content of the final message (Paris), not the content of the latest
user message (capital of France), because the source reads
`messages[messages.length - 1]` without filtering by role. -/
theorem searchQuery_last_message :
    searchQuery [⟨.user, "capital of France"⟩, ⟨.assistant, "Paris"⟩] = some "Paris" ∧
    (([⟨.user, "capital of France"⟩, ⟨.assistant, "Paris"⟩] : List ChatMessage).filter
        (fun m => m.role == ChatRole.user)).getLast?.map (fun m => m.content) =
      some "capital of France" ∧
    some "Paris" ≠ some "capital of France" :=
  ⟨by decide, by decide, by decide⟩

/-- Counterexample to claim C4 as stated: with the empty incoming payload,
which has no first character at all (so the stated condition requires no
separator), the code still inserts a space after an alphanumeric buffer:
the JavaScript regex test converts the undefined first character to the
string undefined, which matches the alphanumeric class. -/
theorem joinPayload_counterexample :
    joinPayload "abc" "" = "abc " ∧ joinPayload "abc" "" ≠ "abc" :=
  ⟨by decide, by decide⟩

/-- Claim C4 amended: for every nonempty incoming payload the heuristic
inserts a single space exactly when the buffer is nonempty and both the
final buffer character and the first payload character are alphanumeric;
for the empty payload a space is inserted whenever the buffer is nonempty
and ends alphanumeric (the test of the missing first character succeeds on
the string form of undefined); and the four concrete examples of the claim
hold, including joining end. with Next giving end.Next without a space. -/
theorem joinPayload_characterization :
    (∀ text content : String, content ≠ "" →
      joinPayload text content =
        if 0 < text.length ∧ jsTestAlnum text.data.getLast? ∧ jsTestAlnum content.data.head?
        then text ++ " " ++ content else text ++ content) ∧
    (∀ text : String, joinPayload text "" =
      if 0 < text.length ∧ jsTestAlnum text.data.getLast? then text ++ " " else text) ∧
    joinPayload "abc" "def" = "abc def" ∧ joinPayload "abc" "!" = "abc!" ∧
    joinPayload "" "def" = "def" ∧ joinPayload "end." "Next" = "end.Next" := by
  refine ⟨?_, ?_, by decide, by decide, by decide, by decide⟩
  · intro text content hc
    by_cases h1 : 0 < text.length
    · by_cases h2 : jsTestAlnum text.data.getLast? = true
      · by_cases h3 : jsTestAlnum content.data.head? = true
        · simp [joinPayload, h1, h2, h3]
        · simp [joinPayload, h1, h2, h3]
      · simp [joinPayload, h1, h2]
    · simp [joinPayload, h1]
  · intro text
    by_cases h1 : 0 < text.length
    · by_cases h2 : jsTestAlnum text.data.getLast? = true
      · have hnone : jsTestAlnum none = true := rfl
        simp [joinPayload, h1, h2, hnone]
      · simp [joinPayload, h1, h2]
    · simp [joinPayload, h1]

/-- Witness for claim C4: the general rule applied to the buffer abc and
the payload def. -/
theorem joinPayload_characterization_witness :
    joinPayload "abc" "def" =
      if 0 < ("abc" : String).length ∧ jsTestAlnum ("abc" : String).data.getLast? ∧
          jsTestAlnum ("def" : String).data.head?
      then "abc" ++ " " ++ "def" else "abc" ++ "def" :=
  joinPayload_characterization.1 "abc" "def" (by decide)

/-- Claim C10: a message whose content is a single space passes validation
(the JavaScript falsiness check sees a nonempty string before trimming) and
is accepted with content trimmed to the empty string, and such a message
reaches the upstream payload with empty content after sanitization, even
though the data model calls for nonempty content. -/
theorem whitespace_content_reaches_payload :
    validateMessage "user" " " = .ok ⟨.user, ""⟩ ∧
    ∀ (norm : String → String) (ctx : String),
      (⟨.user, ""⟩ : ChatMessage) ∈
        payloadMessages norm (injectSystem (systemMessageFor ctx) [⟨.user, ""⟩]) := by
  refine ⟨rfl, ?_⟩
  intro norm ctx
  show (⟨.user, ""⟩ : ChatMessage) ∈
    payloadMessages norm (systemMessageFor ctx :: [⟨.user, ""⟩])
  simp [payloadMessages, sanitizeContent]
